import Mathlib

/-
Verification of the Keycloak realm reconciliation scripts.

The JSON documents manipulated by the scripts are modelled by the
inductive type JVal below; Python dictionaries become association lists
with Python dict update semantics (replace in place when the key exists,
append otherwise).  Remote HTTP calls are modelled by passing the
response as an explicit argument; a call that terminates the process via
sys.exit is modelled with Except, the error carrying the HTTP status.
-/

namespace KairosSpec

/-- A JSON value, as produced by json.loads in the scripts.  Numbers are
modelled as integers; the realm documents handled by the scripts carry
no fractional numbers. -/
inductive JVal where
  | null
  | bool (b : Bool)
  | num (n : Int)
  | str (s : String)
  | arr (elems : List JVal)
  | obj (fields : List (String × JVal))

mutual

/-- Structural equality test on JSON values (Python == on parsed JSON). -/
def JVal.beq : JVal → JVal → Bool
  | .null, .null => true
  | .bool a, .bool b => a == b
  | .num a, .num b => a == b
  | .str a, .str b => a == b
  | .arr a, .arr b => JVal.beqList a b
  | .obj a, .obj b => JVal.beqFields a b
  | _, _ => false

/-- Equality test on JSON arrays, elementwise. -/
def JVal.beqList : List JVal → List JVal → Bool
  | [], [] => true
  | a :: as, b :: bs => JVal.beq a b && JVal.beqList as bs
  | _, _ => false

/-- Equality test on JSON object field lists, pairwise. -/
def JVal.beqFields : List (String × JVal) → List (String × JVal) → Bool
  | [], [] => true
  | (k1, v1) :: as, (k2, v2) :: bs =>
      (k1 == k2 && JVal.beq v1 v2) && JVal.beqFields as bs
  | _, _ => false

end

mutual

theorem JVal.eq_of_beq : ∀ (a b : JVal), JVal.beq a b = true → a = b
  | .null, .null, _ => rfl
  | .bool a, .bool b, h => by
      have hb : a = b := by simpa [JVal.beq] using h
      exact congrArg JVal.bool hb
  | .num a, .num b, h => by
      have hb : a = b := by simpa [JVal.beq] using h
      exact congrArg JVal.num hb
  | .str a, .str b, h => by
      have hb : a = b := by simpa [JVal.beq] using h
      exact congrArg JVal.str hb
  | .arr a, .arr b, h =>
      congrArg JVal.arr (JVal.eqList_of_beqList a b (by simpa [JVal.beq] using h))
  | .obj a, .obj b, h =>
      congrArg JVal.obj (JVal.eqFields_of_beqFields a b (by simpa [JVal.beq] using h))
  | .null, .bool _, h | .null, .num _, h | .null, .str _, h
  | .null, .arr _, h | .null, .obj _, h
  | .bool _, .null, h | .bool _, .num _, h | .bool _, .str _, h
  | .bool _, .arr _, h | .bool _, .obj _, h
  | .num _, .null, h | .num _, .bool _, h | .num _, .str _, h
  | .num _, .arr _, h | .num _, .obj _, h
  | .str _, .null, h | .str _, .bool _, h | .str _, .num _, h
  | .str _, .arr _, h | .str _, .obj _, h
  | .arr _, .null, h | .arr _, .bool _, h | .arr _, .num _, h
  | .arr _, .str _, h | .arr _, .obj _, h
  | .obj _, .null, h | .obj _, .bool _, h | .obj _, .num _, h
  | .obj _, .str _, h | .obj _, .arr _, h => nomatch h

theorem JVal.eqList_of_beqList :
    ∀ (a b : List JVal), JVal.beqList a b = true → a = b
  | [], [], _ => rfl
  | a :: as, b :: bs, h => by
      have h' : JVal.beq a b = true ∧ JVal.beqList as bs = true := by
        simpa [JVal.beqList, Bool.and_eq_true] using h
      have h1 := JVal.eq_of_beq a b h'.1
      have h2 := JVal.eqList_of_beqList as bs h'.2
      rw [h1, h2]
  | [], _ :: _, h => nomatch h
  | _ :: _, [], h => nomatch h

theorem JVal.eqFields_of_beqFields :
    ∀ (a b : List (String × JVal)), JVal.beqFields a b = true → a = b
  | [], [], _ => rfl
  | (k1, v1) :: as, (k2, v2) :: bs, h => by
      have h' : (k1 == k2) = true ∧ JVal.beq v1 v2 = true ∧
          JVal.beqFields as bs = true := by
        simpa [JVal.beqFields, Bool.and_eq_true, and_assoc] using h
      have hk : k1 = k2 := by simpa using h'.1
      have hv := JVal.eq_of_beq v1 v2 h'.2.1
      have ht := JVal.eqFields_of_beqFields as bs h'.2.2
      rw [hk, hv, ht]
  | [], _ :: _, h => nomatch h
  | _ :: _, [], h => nomatch h

end

mutual

theorem JVal.beq_refl : ∀ (a : JVal), JVal.beq a a = true
  | .null => rfl
  | .bool b => by simp [JVal.beq]
  | .num n => by simp [JVal.beq]
  | .str s => by simp [JVal.beq]
  | .arr l => by simpa [JVal.beq] using JVal.beqList_refl l
  | .obj l => by simpa [JVal.beq] using JVal.beqFields_refl l

theorem JVal.beqList_refl : ∀ (l : List JVal), JVal.beqList l l = true
  | [] => rfl
  | a :: as => by
      simp [JVal.beqList, JVal.beq_refl a, JVal.beqList_refl as]

theorem JVal.beqFields_refl : ∀ (l : List (String × JVal)), JVal.beqFields l l = true
  | [] => rfl
  | (k, v) :: as => by
      simp [JVal.beqFields, JVal.beq_refl v, JVal.beqFields_refl as]

end

instance : DecidableEq JVal := fun a b =>
  decidable_of_iff (JVal.beq a b = true)
    ⟨JVal.eq_of_beq a b, fun h => h ▸ JVal.beq_refl a⟩

/-- A parsed JSON object, i.e. a Python dict with string keys. -/
abbrev Dict := List (String × JVal)

/-- Python d.get(k): the value at the first matching key, if any. -/
def dget (d : Dict) (k : String) : Option JVal :=
  match d with
  | [] => none
  | p :: rest => if p.1 = k then some p.2 else dget rest k

/-- Python d[k] = v: replace the value in place when the key exists,
append the pair at the end otherwise. -/
def dinsert (d : Dict) (k : String) (v : JVal) : Dict :=
  match d with
  | [] => [(k, v)]
  | p :: rest => if p.1 = k then (k, v) :: rest else p :: dinsert rest k v

theorem dget_dinsert_self (d : Dict) (k : String) (v : JVal) :
    dget (dinsert d k v) k = some v := by
  induction d with
  | nil => simp [dinsert, dget]
  | cons p rest ih =>
      by_cases h : p.1 = k
      · simp [dinsert, dget, h]
      · simp [dinsert, dget, h, ih]

theorem dget_dinsert_ne (d : Dict) (k k' : String) (v : JVal) (h : k' ≠ k) :
    dget (dinsert d k v) k' = dget d k' := by
  have hk : ¬ (k = k') := fun hk => h hk.symm
  induction d with
  | nil => simp [dinsert, dget, hk]
  | cons p rest ih =>
      by_cases hp : p.1 = k
      · have hq : ¬ (p.1 = k') := by rw [hp]; exact hk
        simp only [dinsert, if_pos hp, dget, if_neg hk, if_neg hq]
      · simp only [dinsert, if_neg hp, dget]
        by_cases hq : p.1 = k'
        · simp only [if_pos hq]
        · simp only [if_neg hq, ih]

/-- Python truthiness of a JSON value: None, False, 0, empty string,
empty array and empty object are falsy. -/
def truthy : JVal → Bool
  | .null => false
  | .bool b => b
  | .num n => decide (n ≠ 0)
  | .str s => decide (s ≠ "")
  | .arr l => decide (l ≠ [])
  | .obj d => decide (d ≠ [])

/-- Truthiness of d.get(k): Python None (an absent key) is falsy. -/
def truthyO : Option JVal → Bool
  | none => false
  | some v => truthy v

/-- Python x or y on two d.get results: keep x when truthy, else y. -/
def pyOr (a b : Option JVal) : Option JVal :=
  if truthyO a then a else b

/-- A Python value that may be None, stored back into a dict slot. -/
def optVal : Option JVal → JVal
  | none => .null
  | some v => v

/-- Field access on a JSON value that is expected to be an object. -/
def jget (v : JVal) (k : String) : Option JVal :=
  match v with
  | .obj d => dget d k
  | _ => none

/-- The field list of a JSON object (Python dict(x) on a dict). -/
def objFields : JVal → Dict
  | .obj d => d
  | _ => []

/-- Python (d.get(k) or []) for a collection-valued field: the array
elements when the field holds an array, and the empty list otherwise. -/
def collOf (d : Dict) (k : String) : List JVal :=
  match dget d k with
  | some (.arr l) => l
  | _ => []

/-
Reconciler (Merge Engine): configure-keycloak-realms.py, function
_merge_realm (lines 147 to 194).  The two collection blocks (clients
keyed by clientId, authenticationFlows keyed by alias) share one shape,
embedded once below over the collection list and the key field name.
-/

/-- The set comprehension building the natural keys of the desired
collection members: every truthy key field value (line 165 / 180). -/
def desiredKeysOfList (l : List JVal) (kf : String) : List JVal :=
  l.filterMap (fun c =>
    match jget c kf with
    | some v => if truthy v then some v else none
    | none => none)

/-- Python membership test of a d.get result in the set of desired
natural keys.  The set holds only truthy values, so Python None (an
absent key) is never a member. -/
def optMem (x : Option JVal) (s : List JVal) : Bool :=
  match x with
  | some v => s.any (fun w => decide (w = v))
  | none => false

/-- Body of the emit loop (lines 168 to 176 / 183 to 191): copy the
desired member and, when a current member with the same natural key
exists and carries a non-null id, stamp that id onto the copy. -/
def stampMember (currentMembers : List JVal) (kf : String) (d : JVal) : JVal :=
  match currentMembers.find? (fun c => decide (jget c kf = jget d kf)) with
  | some ex =>
      if truthy ex then
        match jget ex "id" with
        | some idv =>
            if idv = JVal.null then JVal.obj (objFields d)
            else JVal.obj (dinsert (objFields d) "id" idv)
        | none => JVal.obj (objFields d)
      else JVal.obj (objFields d)
  | none => JVal.obj (objFields d)

/-- Merge of one named collection: current members whose natural key is
not among the desired keys, followed by one stamped copy per desired
member with a truthy natural key (lines 164 to 177 / 179 to 192). -/
def mergeCollList (currentMembers desiredMembers : List JVal) (kf : String) : List JVal :=
  let dkeys := desiredKeysOfList desiredMembers kf
  let kept := currentMembers.filter (fun c => ! optMem (jget c kf) dkeys)
  desiredMembers.foldl
    (fun acc d =>
      if truthyO (jget d kf) then acc ++ [stampMember currentMembers kf d]
      else acc)
    kept

/-- Merge of the named collection collKey of two realm documents. -/
def mergeColl (current desired : Dict) (collKey kf : String) : List JVal :=
  mergeCollList (collOf current collKey) (collOf desired collKey) kf

/-- The fixed allow-list of top-level realm fields that desired may
override (lines 156 to 160). -/
def scalarAllowKeys : List String :=
  ["realm", "enabled", "registrationAllowed", "loginWithEmailAllowed",
   "duplicateEmailsAllowed", "ssoSessionIdleTimeout", "ssoSessionMaxLifespan",
   "accessCodeLifespan", "accessCodeLifespanUserAction",
   "accessCodeLifespanLogin", "groups"]

/-- The scalar copy loop (lines 156 to 162): for each allow-listed key
present in desired, overwrite the merged value with the desired one. -/
def scalarFold (desired : Dict) (ks : List String) (m : Dict) : Dict :=
  ks.foldl
    (fun m k =>
      match dget desired k with
      | some v => dinsert m k v
      | none => m)
    m

/-- The merge engine (lines 147 to 194): start from a copy of current,
set id to (current id or desired id or current realm name), copy the
allow-listed scalars from desired, then rebuild the clients and
authenticationFlows collections. -/
def _merge_realm (current desired : Dict) : Dict :=
  let merged1 := dinsert current "id"
    (optVal (pyOr (pyOr (dget current "id") (dget desired "id")) (dget current "realm")))
  let merged2 := scalarFold desired scalarAllowKeys merged1
  let merged3 := dinsert merged2 "clients"
    (JVal.arr (mergeColl current desired "clients" "clientId"))
  dinsert merged3 "authenticationFlows"
    (JVal.arr (mergeColl current desired "authenticationFlows" "alias"))

/-
Policy Resolver: docker network discovery and trusted host computation,
configure-keycloak-realms.py lines 197 to 262, and the trusted hosts
component update, lines 265 to 326.
-/

/-- Python str.strip(): drop whitespace from both ends. -/
def pyStrip (s : String) : String :=
  String.mk (((s.data.dropWhile Char.isWhitespace).reverse.dropWhile
    Char.isWhitespace).reverse)

/-- Python str.split(sep) for a one-character separator. -/
def splitOnChar (c : Char) : List Char → List (List Char)
  | [] => [[]]
  | x :: xs =>
      let r := splitOnChar c xs
      if x = c then [] :: r
      else (x :: r.headD []) :: r.tail

/-- One group of the dotted quad pattern: one to three digit characters.
The Python digit class is modelled with the ASCII digit test; the docker
outputs being matched are ASCII. -/
def digitGroup (g : List Char) : Bool :=
  decide (1 ≤ g.length) && decide (g.length ≤ 3) && g.all Char.isDigit

/-- The anchored pattern of four dot separated digit groups used at
lines 217 and 234.  Python re.match with a closing dollar also accepts
one final newline; the gateway input is stripped before matching, so
that case is carried only for fidelity. -/
def reMatchDottedQuad (s : String) : Bool :=
  let cs := if s.data.getLast? = some '\n' then s.data.dropLast else s.data
  let groups := splitOnChar '.' cs
  decide (groups.length = 4) && groups.all digitGroup

/-- _run_docker (lines 197 to 209): None when the subprocess raised or
exited nonzero, else the stripped stdout, with empty output mapped to
None.  The oracle argument is the subprocess result: exit code and
stdout, or None for a timeout or a missing docker binary. -/
def _run_docker (res : Option (Int × String)) : Option String :=
  match res with
  | none => none
  | some (rc, stdout) =>
      if rc ≠ 0 then none
      else if pyStrip stdout = "" then none
      else some (pyStrip stdout)

/-- _docker_network_gateway (lines 212 to 219): the inspect output when
it is present and matches the dotted quad pattern, else None. -/
def _docker_network_gateway (res : Option (Int × String)) : Option String :=
  match _run_docker res with
  | none => none
  | some out =>
      if out = "" then none
      else if reMatchDottedQuad out then some out else none

/-- List prefix test on characters, written out so it evaluates. -/
def strStartsB : List Char → List Char → Bool
  | [], _ => true
  | _ :: _, [] => false
  | a :: as, b :: bs => decide (a = b) && strStartsB as bs

/-- Python (needle in hay) on strings: contiguous substring test. -/
def strContainsB (n : List Char) : List Char → Bool
  | [] => n.isEmpty
  | h :: t => strStartsB n (h :: t) || strContainsB n t

/-- Python (info.get(f) or "") for a string field: an absent or falsy
value collapses to the empty string. -/
def strFieldOr (info : Dict) (f : String) : String :=
  match dget info f with
  | some (.str s) => s
  | _ => ""

/-- Python s.split("/")[0]. -/
def headSegment (s : String) : String :=
  String.mk ((splitOnChar '/' s.data).headD [])

/-- The container loop of _docker_container_ip_on_network (lines 230 to
236): first container whose name contains the service name and whose
IPv4Address head matches the dotted quad pattern. -/
def containerScan : List (String × Dict) → String → Option String
  | [], _ => none
  | (_, info) :: rest, service_name =>
      if strContainsB service_name.data (strFieldOr info "Name").data then
        let addr := headSegment (strFieldOr info "IPv4Address")
        if decide (addr ≠ "") && reMatchDottedQuad addr then some addr
        else containerScan rest service_name
      else containerScan rest service_name

/-- _docker_container_ip_on_network (lines 222 to 236) after the
network inspect call and json.loads, modelled by the parsed argument:
None when the call failed or its output was not valid JSON. -/
def _docker_container_ip_on_network
    (parsed : Option (List (String × Dict))) (service_name : String) : Option String :=
  match parsed with
  | none => none
  | some containers => containerScan containers service_name

/-- Python truthiness of an optional string: None and "" are falsy. -/
def strTruthy : Option String → Bool
  | none => false
  | some s => decide (s ≠ "")

/-- get_trusted_hosts_for_env (lines 239 to 262).  The docker calls are
modelled by the two oracle arguments: the raw gateway inspect result and
the parsed container map.  The second component counts the warnings
printed to stderr. -/
def get_trusted_hosts_for_env (env : String) (gwRes : Option (Int × String))
    (containers : Option (List (String × Dict))) : List String × Nat :=
  let base0 := ["127.0.0.1", "localhost"]
  let gateway := _docker_network_gateway gwRes
  let base1 := if strTruthy gateway then base0 ++ [gateway.getD ""] else base0
  if env = "dev" then
    (base1, if strTruthy gateway then 0 else 1)
  else if env = "qa" then
    let ip := _docker_container_ip_on_network containers "app-qa"
    let base2 := if strTruthy ip then base1 ++ [ip.getD ""] else base1
    (base2 ++ ["app-qa"], 0)
  else if env = "prod" then
    let ip := _docker_container_ip_on_network containers "app-prod"
    let base2 := if strTruthy ip then base1 ++ [ip.getD ""] else base1
    (base2 ++ ["app-prod"], 0)
  else (base1, 0)

/-- An HTTP response to a mutating call: success, or an HTTPError with
its status code. -/
inductive HttpResp where
  | success
  | httpError (code : Nat)
  deriving DecidableEq

/-- create_realm_minimal (configure-keycloak-realms.py lines 102 to
117): a 409 conflict means the realm already exists and returns False;
any other HTTPError terminates the run via sys.exit, modelled as
Except.error carrying the status. -/
def create_realm_minimal (resp : HttpResp) : Except Nat Bool :=
  match resp with
  | .success => .ok true
  | .httpError c => if c = 409 then .ok false else .error c

/-- create_realm (ensure-keycloak-realms.py lines 84 to 98): the same
conflict handling as create_realm_minimal. -/
def create_realm (resp : HttpResp) : Except Nat Bool :=
  match resp with
  | .success => .ok true
  | .httpError c => if c = 409 then .ok false else .error c

/-- The provider id of the trusted hosts component (line 34). -/
def TRUSTED_HOSTS_PROVIDER_ID : String := "trusted-hosts"

/-- Outcome of ensure_trusted_hosts: whether the skip warning was
printed, and the component update call issued (component id and PUT
payload), if any. -/
structure THOutcome where
  warned : Bool
  update : Option (JVal × Dict)
  deriving DecidableEq

/-- ensure_trusted_hosts (lines 306 to 326), given the component list
the remote returned for the client registration policy type and the
trusted host list computed for the environment. -/
def ensure_trusted_hosts (components : List JVal) (trusted_hosts : List String) : THOutcome :=
  let trusted := components.find?
    (fun c => decide (jget c "providerId" = some (JVal.str TRUSTED_HOSTS_PROVIDER_ID)))
  match trusted with
  | none => ⟨true, none⟩
  | some t =>
      if truthyO (jget t "id") then
        let config0 := match jget t "config" with
          | some (.obj d) => d
          | _ => []
        let config1 := dinsert config0 "host-sending-registration-request-must-match"
          (JVal.arr [JVal.str "true"])
        let config2 := dinsert config1 "trusted-hosts"
          (JVal.arr (trusted_hosts.map JVal.str))
        let config3 := dinsert config2 "client-uris-must-match"
          (JVal.arr [JVal.str "false"])
        ⟨false, some (optVal (jget t "id"), dinsert (objFields t) "config" (JVal.obj config3))⟩
      else ⟨true, none⟩

/-
Trusted hosts relaxation script: ensure_keycloak_trusted_hosts.py.
-/

/-- The kebab-case disable map CONFIG_DISABLE_STRICT (lines 85 to 88). -/
def CONFIG_DISABLE_STRICT : Dict :=
  [("host-sending-registration-request-must-match", JVal.arr [JVal.str "false"]),
   ("client-uris-must-match", JVal.arr [JVal.str "false"])]

/-- The camelCase fallback CONFIG_DISABLE_STRICT_CAMEL (lines 90 to 93). -/
def CONFIG_DISABLE_STRICT_CAMEL : Dict :=
  [("hostSendingRegistrationRequestMustMatch", JVal.arr [JVal.str "false"]),
   ("clientUrisMustMatch", JVal.arr [JVal.str "false"])]

/-- Python config.update(src): set every pair of src, in order. -/
def dupdate (d src : Dict) : Dict :=
  src.foldl (fun m p => dinsert m p.1 p.2) d

/-- Outcome of the relaxation script: process exit code plus the
component update call issued, if any. -/
structure RelaxOutcome where
  exitCode : Nat
  update : Option (JVal × Dict)
  deriving DecidableEq

/-- The already relaxed test for the host check (lines 195 to 198). -/
def hostOff (config : Dict) : Bool :=
  decide (dget config "host-sending-registration-request-must-match"
    = some (JVal.arr [JVal.str "false"]))
  || decide (dget config "hostSendingRegistrationRequestMustMatch"
    = some (JVal.arr [JVal.str "false"]))

/-- The already relaxed test for the client URI check (lines 199 to 202). -/
def urisOff (config : Dict) : Bool :=
  decide (dget config "client-uris-must-match"
    = some (JVal.arr [JVal.str "false"]))
  || decide (dget config "clientUrisMustMatch"
    = some (JVal.arr [JVal.str "false"]))

/-- ensure_keycloak_trusted_hosts.py main (lines 174 to 212) from the
component lookup on: locate the trusted-hosts component, soft skip when
it is absent or has no id, dump the config when asked, skip the update
when both checks are already off, else update with both disable maps
applied in order. -/
def trusted_hosts_relax_main (components : List JVal) (printConfig : Bool) : RelaxOutcome :=
  let trusted := components.find?
    (fun c => decide (jget c "providerId" = some (JVal.str TRUSTED_HOSTS_PROVIDER_ID)))
  match trusted with
  | none => ⟨0, none⟩
  | some t =>
      if printConfig then ⟨0, none⟩
      else if truthyO (jget t "id") then
        let config := match jget t "config" with
          | some (.obj d) => d
          | _ => []
        if hostOff config && urisOff config then ⟨0, none⟩
        else
          let config2 := dupdate (dupdate config CONFIG_DISABLE_STRICT)
            CONFIG_DISABLE_STRICT_CAMEL
          ⟨0, some (optVal (jget t "id"), dinsert (objFields t) "config" (JVal.obj config2))⟩
      else ⟨0, none⟩

/-
Fixture Provisioner: configure-keycloak-realms.py lines 329 to 393.
-/

/-- Response to the create user POST (lines 345 to 361): created with an
optional Location header, or an HTTPError status. -/
inductive CreateUserResp where
  | created (location : Option String)
  | httpError (code : Nat)
  deriving DecidableEq

/-- Python location.rstrip("/").split("/")[-1] (line 355). -/
def lastSegment (loc : String) : String :=
  let cs := (loc.data.reverse.dropWhile (fun c => c = '/')).reverse
  String.mk ((splitOnChar '/' cs).getLastD [])

/-- create_user (lines 345 to 361): on success the user id is the last
segment of the Location header when that header is present; a 409
conflict is swallowed and yields None; any other HTTPError exits the
run. -/
def create_user (resp : CreateUserResp) : Except Nat (Option String) :=
  match resp with
  | .created (some l) => .ok (some (lastSegment l))
  | .created none => .ok none
  | .httpError c => if c = 409 then .ok none else .error c

/-- Outcome of ensure_test_user: whether the could-not-create warning
was printed, and the user id passed to the credential reset call, when
that call was issued at all. -/
structure EnsureUserOutcome where
  warned : Bool
  passwordSetFor : Option String
  deriving DecidableEq

/-- ensure_test_user (lines 383 to 393).  The lookup argument is the
result of the get_user_id call (the id of the first matching user, if
any, on a successful GET); resp is the response the create call would
receive if issued.  The declared password is threaded to set_password
unchanged, so it is left out of the model. -/
def ensure_test_user (lookup : Option String) (resp : CreateUserResp) :
    Except Nat EnsureUserOutcome :=
  let step : Except Nat (Option String) :=
    if strTruthy lookup then .ok lookup else create_user resp
  match step with
  | .error c => .error c
  | .ok uid =>
      if strTruthy uid then .ok ⟨false, uid⟩
      else .ok ⟨true, none⟩

/-
Derived notions used by the statements below.
-/

/-- The members the emit loop of a collection merge appends: one stamped
copy per desired member with a truthy natural key, in order. -/
def emittedOf (currentMembers : List JVal) (kf : String) (l : List JVal) : List JVal :=
  l.filterMap (fun d =>
    if truthyO (jget d kf) then some (stampMember currentMembers kf d) else none)

/-- Natural keys identify current collection members uniquely: two
members carrying the same truthy key value are the same member.  The
remote state satisfies this, since the remote service enforces unique
client ids and flow aliases within a realm. -/
abbrev KeyInjOn (l : List JVal) (kf : String) : Prop :=
  ∀ c1 ∈ l, ∀ c2 ∈ l,
    truthyO (jget c1 kf) = true → jget c1 kf = jget c2 kf → c1 = c2

/-
Lemmas about the merge engine.
-/

theorem mergeFold_eq (cur : List JVal) (kf : String) :
    ∀ (l acc : List JVal),
      l.foldl (fun acc d =>
          if truthyO (jget d kf) then acc ++ [stampMember cur kf d] else acc) acc
        = acc ++ emittedOf cur kf l := by
  intro l
  induction l with
  | nil => intro acc; simp [emittedOf]
  | cons d rest ih =>
      intro acc
      by_cases h : truthyO (jget d kf) = true
      · rw [List.foldl_cons, if_pos h, ih]
        simp [emittedOf, h, List.append_assoc]
      · rw [List.foldl_cons, if_neg h, ih]
        simp [emittedOf, h]

theorem mergeCollList_eq (cur des : List JVal) (kf : String) :
    mergeCollList cur des kf =
      cur.filter (fun c => ! optMem (jget c kf) (desiredKeysOfList des kf))
        ++ emittedOf cur kf des := by
  unfold mergeCollList
  exact mergeFold_eq cur kf des _

theorem mem_emittedOf {cur : List JVal} {kf : String} {l : List JVal} {m : JVal} :
    m ∈ emittedOf cur kf l ↔
      ∃ d, d ∈ l ∧ truthyO (jget d kf) = true ∧ m = stampMember cur kf d := by
  unfold emittedOf
  rw [List.mem_filterMap]
  constructor
  · rintro ⟨d, hd, hsome⟩
    by_cases h : truthyO (jget d kf) = true
    · rw [if_pos h] at hsome
      exact ⟨d, hd, h, (Option.some.inj hsome).symm⟩
    · rw [if_neg h] at hsome
      exact absurd hsome (by simp)
  · rintro ⟨d, hd, h, rfl⟩
    exact ⟨d, hd, by rw [if_pos h]⟩

theorem dget_objFields (d : JVal) (k : String) :
    dget (objFields d) k = jget d k := by
  cases d <;> simp [objFields, jget, dget]

theorem truthy_of_jget_some {v : JVal} {f : String} {w : JVal}
    (h : jget v f = some w) : truthy v = true := by
  cases v <;> simp [jget] at h
  case obj fields =>
    cases fields with
    | nil => simp [dget] at h
    | cons p rest => simp [truthy]

theorem collOf_merge_realm_clients (current desired : Dict) :
    collOf (_merge_realm current desired) "clients"
      = mergeColl current desired "clients" "clientId" := by
  show collOf (dinsert (dinsert _ "clients" _) "authenticationFlows" _) "clients" = _
  unfold collOf
  rw [dget_dinsert_ne _ _ _ _ (by decide), dget_dinsert_self]

theorem collOf_merge_realm_flows (current desired : Dict) :
    collOf (_merge_realm current desired) "authenticationFlows"
      = mergeColl current desired "authenticationFlows" "alias" := by
  show collOf (dinsert _ "authenticationFlows" _) "authenticationFlows" = _
  unfold collOf
  rw [dget_dinsert_self]

/-- C1 (amended): for a named collection (clients keyed by clientId,
authentication flows keyed by alias), the merged collection contains a
stamped copy of every desired member with a truthy natural key, retains
every current member whose natural key is not among the desired natural
keys (such members are NOT dropped: the merge is an additive upsert, not
a whole collection replacement), and contains nothing else; the clients
and authenticationFlows fields of the _merge_realm output are exactly
these merged collections. -/
theorem merged_collection_membership (current desired : Dict) (collKey kf : String) :
    (∀ d ∈ collOf desired collKey, truthyO (jget d kf) = true →
        stampMember (collOf current collKey) kf d ∈ mergeColl current desired collKey kf)
    ∧ (∀ c ∈ collOf current collKey,
        optMem (jget c kf) (desiredKeysOfList (collOf desired collKey) kf) = false →
        c ∈ mergeColl current desired collKey kf)
    ∧ (∀ m ∈ mergeColl current desired collKey kf,
        (m ∈ collOf current collKey ∧
          optMem (jget m kf) (desiredKeysOfList (collOf desired collKey) kf) = false)
        ∨ (∃ d, d ∈ collOf desired collKey ∧ truthyO (jget d kf) = true ∧
            m = stampMember (collOf current collKey) kf d))
    ∧ collOf (_merge_realm current desired) "clients"
        = mergeColl current desired "clients" "clientId"
    ∧ collOf (_merge_realm current desired) "authenticationFlows"
        = mergeColl current desired "authenticationFlows" "alias" := by
  refine ⟨?_, ?_, ?_, collOf_merge_realm_clients current desired,
    collOf_merge_realm_flows current desired⟩
  · intro d hd ht
    simp only [mergeColl]
    rw [mergeCollList_eq, List.mem_append]
    exact Or.inr (mem_emittedOf.mpr ⟨d, hd, ht, rfl⟩)
  · intro c hc hmem
    simp only [mergeColl]
    rw [mergeCollList_eq, List.mem_append]
    exact Or.inl (List.mem_filter.mpr ⟨hc, by simp [hmem]⟩)
  · intro m hm
    simp only [mergeColl] at hm
    rw [mergeCollList_eq, List.mem_append] at hm
    rcases hm with hm | hm
    · have h' := List.mem_filter.mp hm
      exact Or.inl ⟨h'.1, by simpa using h'.2⟩
    · exact Or.inr (mem_emittedOf.mp hm)

/-- C1 witness: in the {A, B} versus {Aprime, C} instance, the retention
conjunct of the amended claim places B in the merged collection. -/
theorem merged_collection_membership_witness :
    JVal.obj [("clientId", JVal.str "b"), ("id", JVal.str "idb")]
      ∈ mergeColl
          [("clients", JVal.arr
            [JVal.obj [("clientId", JVal.str "a"), ("id", JVal.str "ida")],
             JVal.obj [("clientId", JVal.str "b"), ("id", JVal.str "idb")]])]
          [("clients", JVal.arr
            [JVal.obj [("clientId", JVal.str "a"), ("y", JVal.num 2)],
             JVal.obj [("clientId", JVal.str "c")]])]
          "clients" "clientId" :=
  (merged_collection_membership
      [("clients", JVal.arr
        [JVal.obj [("clientId", JVal.str "a"), ("id", JVal.str "ida")],
         JVal.obj [("clientId", JVal.str "b"), ("id", JVal.str "idb")]])]
      [("clients", JVal.arr
        [JVal.obj [("clientId", JVal.str "a"), ("y", JVal.num 2)],
         JVal.obj [("clientId", JVal.str "c")]])]
      "clients" "clientId").2.1
    (JVal.obj [("clientId", JVal.str "b"), ("id", JVal.str "idb")])
    (by decide) (by decide)

/-- C1 counterexample: with current clients {A, B} and desired clients
{Aprime, C}, the merged clients collection of _merge_realm is
[B, Aprime with the id of A, C]; in particular B, whose natural key b
exists only in current and not in desired, is present in the output,
refuting the claimed whole collection replacement. -/
theorem merge_drops_nothing_counterexample :
    collOf (_merge_realm
        [("clients", JVal.arr
          [JVal.obj [("clientId", JVal.str "a"), ("id", JVal.str "ida")],
           JVal.obj [("clientId", JVal.str "b"), ("id", JVal.str "idb")]])]
        [("clients", JVal.arr
          [JVal.obj [("clientId", JVal.str "a"), ("y", JVal.num 2)],
           JVal.obj [("clientId", JVal.str "c")]])]) "clients"
      = [JVal.obj [("clientId", JVal.str "b"), ("id", JVal.str "idb")],
         JVal.obj [("clientId", JVal.str "a"), ("y", JVal.num 2), ("id", JVal.str "ida")],
         JVal.obj [("clientId", JVal.str "c")]]
    ∧ JVal.obj [("clientId", JVal.str "b"), ("id", JVal.str "idb")]
        ∈ collOf (_merge_realm
            [("clients", JVal.arr
              [JVal.obj [("clientId", JVal.str "a"), ("id", JVal.str "ida")],
               JVal.obj [("clientId", JVal.str "b"), ("id", JVal.str "idb")]])]
            [("clients", JVal.arr
              [JVal.obj [("clientId", JVal.str "a"), ("y", JVal.num 2)],
               JVal.obj [("clientId", JVal.str "c")]])]) "clients"
    ∧ optMem (some (JVal.str "b"))
        (desiredKeysOfList (collOf
          [("clients", JVal.arr
            [JVal.obj [("clientId", JVal.str "a"), ("y", JVal.num 2)],
             JVal.obj [("clientId", JVal.str "c")]])] "clients") "clientId") = false := by
  decide

/-- The omission lemma at the collection list level: deleting a desired
member whose natural key field is falsy leaves the merge unchanged. -/
theorem mergeCollList_drop_keyless (cur l1 l2 : List JVal) (d : JVal) (kf : String)
    (h : truthyO (jget d kf) = false) :
    mergeCollList cur (l1 ++ d :: l2) kf = mergeCollList cur (l1 ++ l2) kf := by
  have hkeys : desiredKeysOfList (l1 ++ d :: l2) kf = desiredKeysOfList (l1 ++ l2) kf := by
    unfold desiredKeysOfList
    rw [List.filterMap_append, List.filterMap_append, List.filterMap_cons]
    have hnone :
        (match jget d kf with
          | some v => if truthy v then some v else none
          | none => none) = (none : Option JVal) := by
      cases hj : jget d kf with
      | none => rfl
      | some v =>
          rw [hj] at h
          simp only [truthyO] at h
          simp [h]
    rw [hnone]
  have hemit : emittedOf cur kf (l1 ++ d :: l2) = emittedOf cur kf (l1 ++ l2) := by
    unfold emittedOf
    rw [List.filterMap_append, List.filterMap_append, List.filterMap_cons, if_neg (by simp [h])]
  rw [mergeCollList_eq, mergeCollList_eq, hkeys, hemit]

/-- C9: a desired collection member that lacks its natural key (falsy
clientId or alias) is silently omitted from the merged collection of
_merge_realm: removing it from the desired collection leaves the merged
collection unchanged, so it contributes nothing to the output, and no
error is raised (the merge is a total function). -/
theorem keyless_desired_member_omitted
    (current desired1 desired2 : Dict) (collKey kf : String)
    (l1 l2 : List JVal) (d : JVal)
    (h1 : collOf desired1 collKey = l1 ++ d :: l2)
    (h2 : collOf desired2 collKey = l1 ++ l2)
    (h : truthyO (jget d kf) = false) :
    mergeColl current desired1 collKey kf = mergeColl current desired2 collKey kf := by
  simp only [mergeColl, h1, h2]
  exact mergeCollList_drop_keyless _ l1 l2 d kf h

/-- C9 witness: a desired client without a clientId merges exactly as if
the desired clients collection were empty. -/
theorem keyless_desired_member_omitted_witness :
    mergeColl
        [("clients", JVal.arr [JVal.obj [("clientId", JVal.str "a"), ("id", JVal.str "ida")]])]
        [("clients", JVal.arr [JVal.obj [("x", JVal.num 1)]])]
        "clients" "clientId"
      = mergeColl
          [("clients", JVal.arr [JVal.obj [("clientId", JVal.str "a"), ("id", JVal.str "ida")]])]
          [("clients", JVal.arr [])]
          "clients" "clientId" :=
  keyless_desired_member_omitted
    [("clients", JVal.arr [JVal.obj [("clientId", JVal.str "a"), ("id", JVal.str "ida")]])]
    [("clients", JVal.arr [JVal.obj [("x", JVal.num 1)]])]
    [("clients", JVal.arr [])]
    "clients" "clientId" [] [] (JVal.obj [("x", JVal.num 1)])
    (by decide) (by decide) (by decide)

theorem jget_stampMember (cur : List JVal) (kf : String) (d : JVal) (h : kf ≠ "id") :
    jget (stampMember cur kf d) kf = jget d kf := by
  unfold stampMember
  split
  · split
    · split
      · split
        · exact dget_objFields d kf
        · exact Eq.trans (dget_dinsert_ne _ _ _ _ h) (dget_objFields d kf)
      · exact dget_objFields d kf
    · exact dget_objFields d kf
  · exact dget_objFields d kf

theorem stampMember_stamps (cur : List JVal) (kf : String) (d ex idv : JVal)
    (hfind : cur.find? (fun c => decide (jget c kf = jget d kf)) = some ex)
    (htr : truthy ex = true) (hid : jget ex "id" = some idv) (hnn : idv ≠ JVal.null) :
    stampMember cur kf d = JVal.obj (dinsert (objFields d) "id" idv) := by
  unfold stampMember
  split
  · rename_i ex' heq
    rw [hfind] at heq
    injection heq with heq
    subst heq
    rw [if_pos htr]
    split
    · rename_i w hw
      rw [hid] at hw
      injection hw with hw
      subst hw
      rw [if_neg hnn]
    · rename_i hw
      rw [hid] at hw
      exact absurd hw (by simp)
  · rename_i heq
    rw [hfind] at heq
    exact absurd heq (by simp)

/-- C2: identity preservation.  Under unique natural keys in the current
collection, every member of the merged collection whose truthy natural
key also identifies a current member carrying a non-null remote id
carries exactly that id in the merged output. -/
theorem merged_member_keeps_current_id
    (current desired : Dict) (collKey kf : String)
    (hkf : kf ≠ "id")
    (hinj : KeyInjOn (collOf current collKey) kf) :
    ∀ m ∈ mergeColl current desired collKey kf, ∀ k : JVal,
      jget m kf = some k → truthy k = true →
      ∀ ex ∈ collOf current collKey, jget ex kf = some k →
      ∀ idv : JVal, jget ex "id" = some idv → idv ≠ JVal.null →
      jget m "id" = some idv := by
  intro m hm k hmk hk ex hex hexk idv hid hnn
  simp only [mergeColl] at hm
  rw [mergeCollList_eq, List.mem_append] at hm
  rcases hm with hm | hm
  · have h' := List.mem_filter.mp hm
    have hme : m = ex :=
      hinj m h'.1 ex hex (by rw [hmk]; simpa [truthyO] using hk) (by rw [hmk, hexk])
    rw [hme]
    exact hid
  · obtain ⟨d, hd, ht, rfl⟩ := mem_emittedOf.mp hm
    have hdk : jget d kf = some k := by
      rw [← jget_stampMember (collOf current collKey) kf d hkf]
      exact hmk
    have hfind : (collOf current collKey).find?
        (fun c => decide (jget c kf = jget d kf)) = some ex := by
      cases hf : (collOf current collKey).find?
          (fun c => decide (jget c kf = jget d kf)) with
      | none =>
          exfalso
          exact (List.find?_eq_none.mp hf ex hex) (by simp [hexk, hdk])
      | some ex' =>
          have hpred := List.find?_some hf
          have hmem' := List.mem_of_find?_eq_some hf
          have hkey' : jget ex' kf = jget d kf := by simpa using hpred
          have hee : ex = ex' :=
            hinj ex hex ex' hmem' (by rw [hexk]; simpa [truthyO] using hk)
              (by rw [hexk, hkey', hdk])
          rw [hee]
    have htr : truthy ex = true := truthy_of_jget_some hexk
    rw [stampMember_stamps (collOf current collKey) kf d ex idv hfind htr hid hnn]
    exact dget_dinsert_self _ _ _

/-- C2 witness: a desired client with natural key a matching a current
client with remote id ida merges to a copy carrying exactly id ida. -/
theorem merged_member_keeps_current_id_witness :
    jget (JVal.obj [("clientId", JVal.str "a"), ("y", JVal.num 2), ("id", JVal.str "ida")])
      "id" = some (JVal.str "ida") :=
  merged_member_keeps_current_id
    [("clients", JVal.arr [JVal.obj [("clientId", JVal.str "a"), ("id", JVal.str "ida")]])]
    [("clients", JVal.arr [JVal.obj [("clientId", JVal.str "a"), ("y", JVal.num 2)]])]
    "clients" "clientId" (by decide) (by decide)
    (JVal.obj [("clientId", JVal.str "a"), ("y", JVal.num 2), ("id", JVal.str "ida")])
    (by decide)
    (JVal.str "a") (by decide) (by decide)
    (JVal.obj [("clientId", JVal.str "a"), ("id", JVal.str "ida")])
    (by decide) (by decide)
    (JVal.str "ida") (by decide) (by decide)

theorem scalarFold_get_notmem (desired : Dict) :
    ∀ (ks : List String) (m : Dict) (k : String), k ∉ ks →
      dget (scalarFold desired ks m) k = dget m k
  | [], _, _, _ => rfl
  | k0 :: rest, m, k, h => by
      have hk0 : k ≠ k0 := fun he => h (he ▸ List.mem_cons_self k0 rest)
      have hrest : k ∉ rest := fun hr => h (List.mem_cons_of_mem k0 hr)
      show dget (scalarFold desired rest (match dget desired k0 with
        | some v => dinsert m k0 v
        | none => m)) k = dget m k
      rw [scalarFold_get_notmem desired rest _ k hrest]
      cases hd : dget desired k0 with
      | none => rfl
      | some v => exact dget_dinsert_ne m k0 k v hk0

theorem scalarFold_get_mem (desired : Dict) :
    ∀ (ks : List String) (m : Dict) (k : String) (v : JVal),
      dget desired k = some v → (k ∈ ks ∨ dget m k = some v) →
      dget (scalarFold desired ks m) k = some v
  | [], m, k, v, _, hor => by
      rcases hor with h | h
      · exact absurd h (List.not_mem_nil k)
      · exact h
  | k0 :: rest, m, k, v, hv, hor => by
      show dget (scalarFold desired rest (match dget desired k0 with
        | some w => dinsert m k0 w
        | none => m)) k = some v
      cases hd : dget desired k0 with
      | none =>
          apply scalarFold_get_mem desired rest m k v hv
          rcases hor with h | h
          · rcases List.mem_cons.mp h with he | hr
            · exfalso
              rw [he] at hv
              rw [hv] at hd
              cases hd
            · exact Or.inl hr
          · exact Or.inr h
      | some w =>
          apply scalarFold_get_mem desired rest (dinsert m k0 w) k v hv
          by_cases hk : k = k0
          · have hw : w = v := by
              rw [← hk, hv] at hd
              exact (Option.some.inj hd).symm
            right
            rw [hk, dget_dinsert_self, hw]
          · rcases hor with h | h
            · rcases List.mem_cons.mp h with he | hr
              · exact absurd he hk
              · exact Or.inl hr
            · right
              rw [dget_dinsert_ne m k0 k w hk]
              exact h

/-- C3 (amended): scalar field scoping.  Every top-level field outside
the allow-list and outside the three specially managed fields id,
clients and authenticationFlows keeps its current value in the
_merge_realm output even when desired carries it with another value;
every allow-listed field present in desired takes the desired value.
The id field is the one correction: the merge always rewrites it to
(current id, else desired id, else the current realm name). -/
theorem merge_realm_scalar_policy (current desired : Dict) (k : String) :
    (k ∉ scalarAllowKeys → k ≠ "id" → k ≠ "clients" → k ≠ "authenticationFlows" →
      dget (_merge_realm current desired) k = dget current k)
    ∧ (∀ v : JVal, k ∈ scalarAllowKeys → dget desired k = some v →
      dget (_merge_realm current desired) k = some v) := by
  constructor
  · intro hks hid hcl hfl
    show dget (dinsert (dinsert (scalarFold desired scalarAllowKeys
      (dinsert current "id" _)) "clients" _) "authenticationFlows" _) k = dget current k
    rw [dget_dinsert_ne _ _ _ _ hfl, dget_dinsert_ne _ _ _ _ hcl,
      scalarFold_get_notmem desired scalarAllowKeys _ k hks,
      dget_dinsert_ne _ _ _ _ hid]
  · intro v hk hv
    have hcl : k ≠ "clients" := fun he => by
      rw [he] at hk
      exact (by decide : "clients" ∉ scalarAllowKeys) hk
    have hfl : k ≠ "authenticationFlows" := fun he => by
      rw [he] at hk
      exact (by decide : "authenticationFlows" ∉ scalarAllowKeys) hk
    show dget (dinsert (dinsert (scalarFold desired scalarAllowKeys
      (dinsert current "id" _)) "clients" _) "authenticationFlows" _) k = some v
    rw [dget_dinsert_ne _ _ _ _ hfl, dget_dinsert_ne _ _ _ _ hcl]
    exact scalarFold_get_mem desired scalarAllowKeys _ k v hv (Or.inl hk)

/-- C3 witness: a field outside the allow-list survives with the value
from current although desired carries it with another value; and an
allow-listed field present in desired is copied. -/
theorem merge_realm_scalar_policy_witness :
    dget (_merge_realm [("attributes", JVal.num 7)] [("attributes", JVal.num 8)])
        "attributes" = dget [("attributes", JVal.num 7)] "attributes"
    ∧ dget (_merge_realm [("enabled", JVal.bool false)] [("enabled", JVal.bool true)])
        "enabled" = some (JVal.bool true) :=
  ⟨(merge_realm_scalar_policy [("attributes", JVal.num 7)]
      [("attributes", JVal.num 8)] "attributes").1
      (by decide) (by decide) (by decide) (by decide),
   (merge_realm_scalar_policy [("enabled", JVal.bool false)]
      [("enabled", JVal.bool true)] "enabled").2
      (JVal.bool true) (by decide) (by decide)⟩

/-- C3 counterexample: the field id is outside the allow-list, yet the
merge rewrites it: with current empty and desired carrying id x, the
output id is x while current has none, refuting the claim that every
field outside the allow-list and the two collection fields keeps the
current value. -/
theorem scalar_frame_id_counterexample :
    dget (_merge_realm [] [("id", JVal.str "x")]) "id" = some (JVal.str "x")
    ∧ dget ([] : Dict) "id" = none
    ∧ "id" ∉ scalarAllowKeys
    ∧ "id" ≠ "clients" ∧ "id" ≠ "authenticationFlows" := by
  decide

/-
Fixture Provisioner claims.
-/

/-- C4 (amended): the fixture provisioner treats a 409 conflict on the
create call as non-fatal, but does NOT issue the credential reset on
that path: the reset is issued exactly when the lookup returned a truthy
id or the create call returned an id derived from a Location header;
when the lookup found nothing and the create call answered 409 (or
succeeded without a Location header), the function prints a warning and
returns without resetting the credential.  Any other HTTP error on the
create call is fatal. -/
theorem ensure_test_user_paths (lookup : Option String) (resp : CreateUserResp) :
    (strTruthy lookup = true →
      ensure_test_user lookup resp = .ok ⟨false, lookup⟩)
    ∧ (strTruthy lookup = false →
      ensure_test_user lookup (CreateUserResp.httpError 409) = .ok ⟨true, none⟩)
    ∧ (∀ c : Nat, strTruthy lookup = false → c ≠ 409 →
      ensure_test_user lookup (CreateUserResp.httpError c) = .error c)
    ∧ (∀ l : String, strTruthy lookup = false →
      strTruthy (some (lastSegment l)) = true →
      ensure_test_user lookup (CreateUserResp.created (some l))
        = .ok ⟨false, some (lastSegment l)⟩) := by
  refine ⟨?_, ?_, ?_, ?_⟩
  · intro h
    unfold ensure_test_user
    rw [if_pos h]
    show (if strTruthy lookup = true
        then Except.ok (⟨false, lookup⟩ : EnsureUserOutcome)
        else Except.ok (⟨true, none⟩ : EnsureUserOutcome))
      = Except.ok (⟨false, lookup⟩ : EnsureUserOutcome)
    rw [if_pos h]
  · intro h
    unfold ensure_test_user
    rw [if_neg (by simp [h])]
    rfl
  · intro c h hc
    unfold ensure_test_user
    rw [if_neg (by simp [h])]
    simp only [create_user]
    rw [if_neg hc]
  · intro l h ht
    unfold ensure_test_user
    rw [if_neg (by simp [h])]
    simp only [create_user]
    show (if strTruthy (some (lastSegment l)) = true
        then Except.ok (⟨false, some (lastSegment l)⟩ : EnsureUserOutcome)
        else Except.ok (⟨true, none⟩ : EnsureUserOutcome))
      = Except.ok (⟨false, some (lastSegment l)⟩ : EnsureUserOutcome)
    rw [if_pos ht]

/-- C4 witness: a found identity goes straight to the credential reset. -/
theorem ensure_test_user_paths_witness :
    ensure_test_user (some "uid9") (CreateUserResp.httpError 500)
      = .ok ⟨false, some "uid9"⟩ :=
  (ensure_test_user_paths (some "uid9") (CreateUserResp.httpError 500)).1 (by decide)

/-- C4 counterexample: on the path where the lookup found no user and
the create call answered 409, the code warns and returns WITHOUT issuing
the credential reset call (no user id is ever passed to set_password),
refuting the claim that the reset is issued on the 409 path.  The
outcome is ok, not error, so only the reset half of the claim fails. -/
theorem conflict_create_no_reset_counterexample :
    ensure_test_user none (CreateUserResp.httpError 409)
      = Except.ok ⟨true, none⟩ := rfl

/-
Policy Resolver claims.
-/

/-- C5 (amended): with both discovery calls unavailable, the dev list is
exactly the two static values with one warning; the qa and prod lists
additionally carry the static peer hostname appended unconditionally,
still no gateway and no discovered peer address, and NO warning is
emitted for qa or prod. -/
theorem degraded_trusted_hosts (gwRes : Option (Int × String))
    (containers : Option (List (String × Dict)))
    (hgw : _docker_network_gateway gwRes = none)
    (hct : ∀ sn : String, _docker_container_ip_on_network containers sn = none) :
    get_trusted_hosts_for_env "dev" gwRes containers = (["127.0.0.1", "localhost"], 1)
    ∧ get_trusted_hosts_for_env "qa" gwRes containers
        = (["127.0.0.1", "localhost", "app-qa"], 0)
    ∧ get_trusted_hosts_for_env "prod" gwRes containers
        = (["127.0.0.1", "localhost", "app-prod"], 0) := by
  refine ⟨?_, ?_, ?_⟩ <;>
    simp [get_trusted_hosts_for_env, hgw, hct, strTruthy]

/-- C5 witness: the prod instance with both oracles absent. -/
theorem degraded_trusted_hosts_witness :
    get_trusted_hosts_for_env "prod" none none
      = (["127.0.0.1", "localhost", "app-prod"], 0) :=
  (degraded_trusted_hosts none none rfl (fun _ => rfl)).2.2

/-- C5 counterexample: for the qa environment with both discovery calls
unavailable, the computed result is not the claimed two static values
with one warning: the static peer hostname app-qa is appended and no
warning is emitted. -/
theorem degraded_trusted_hosts_counterexample :
    get_trusted_hosts_for_env "qa" none none ≠ (["127.0.0.1", "localhost"], 1)
    ∧ get_trusted_hosts_for_env "qa" none none
        = (["127.0.0.1", "localhost", "app-qa"], 0) := by
  decide

theorem _run_docker_ne_empty (res : Option (Int × String)) (g : String)
    (h : _run_docker res = some g) : g ≠ "" := by
  unfold _run_docker at h
  split at h
  · simp at h
  · rename_i rc stdout
    by_cases hrc : rc ≠ 0
    · rw [if_pos hrc] at h
      simp at h
    · rw [if_neg hrc] at h
      by_cases hs : pyStrip stdout = ""
      · rw [if_pos hs] at h
        simp at h
      · rw [if_neg hs] at h
        rw [← Option.some.inj h]
        exact hs

theorem gateway_ne_empty (res : Option (Int × String)) (g : String)
    (h : _docker_network_gateway res = some g) : g ≠ "" := by
  unfold _docker_network_gateway at h
  split at h
  · simp at h
  · rename_i out hrun
    by_cases ho : out = ""
    · rw [if_pos ho] at h
      simp at h
    · rw [if_neg ho] at h
      by_cases hre : reMatchDottedQuad out = true
      · rw [if_pos hre] at h
        rw [← Option.some.inj h]
        exact ho
      · rw [if_neg hre] at h
        simp at h

/-- C8: the gateway discovered by _docker_network_gateway is some g
exactly when the docker call succeeded with stripped output g matching
the strict dotted quad pattern; the computed trusted host list carries
the gateway as its third entry exactly in that case, and an absent or
non-matching value leaves the list as if no gateway existed, without any
fatal outcome (the computation is total). -/
theorem gateway_inclusion_iff (env : String) (gwRes : Option (Int × String))
    (containers : Option (List (String × Dict))) :
    (∀ g : String, _docker_network_gateway gwRes = some g ↔
        (_run_docker gwRes = some g ∧ reMatchDottedQuad g = true))
    ∧ (∀ g : String, _docker_network_gateway gwRes = some g →
        (get_trusted_hosts_for_env env gwRes containers).1
          = ["127.0.0.1", "localhost", g]
            ++ ((get_trusted_hosts_for_env env none containers).1.drop 2))
    ∧ (_docker_network_gateway gwRes = none →
        (get_trusted_hosts_for_env env gwRes containers).1
          = (get_trusted_hosts_for_env env none containers).1) := by
  refine ⟨?_, ?_, ?_⟩
  · intro g
    constructor
    · intro hg
      unfold _docker_network_gateway at hg
      split at hg
      · simp at hg
      · rename_i out hrun
        by_cases ho : out = ""
        · rw [if_pos ho] at hg
          simp at hg
        · rw [if_neg ho] at hg
          by_cases hre : reMatchDottedQuad out = true
          · rw [if_pos hre] at hg
            have hog : out = g := Option.some.inj hg
            subst hog
            exact ⟨hrun, hre⟩
          · rw [if_neg hre] at hg
            simp at hg
    · rintro ⟨hrun, hre⟩
      have hne : g ≠ "" := _run_docker_ne_empty gwRes g hrun
      unfold _docker_network_gateway
      rw [hrun]
      show (if g = "" then none else if reMatchDottedQuad g then some g else none)
        = some g
      rw [if_neg hne, if_pos hre]
  · intro g hg
    have hne : g ≠ "" := gateway_ne_empty gwRes g hg
    have hnil : _docker_network_gateway none = none := rfl
    by_cases h1 : env = "dev"
    · subst h1
      simp [get_trusted_hosts_for_env, hg, hnil, strTruthy, hne]
    · by_cases h2 : env = "qa"
      · subst h2
        cases hip : _docker_container_ip_on_network containers "app-qa" with
        | none =>
            simp [get_trusted_hosts_for_env, hg, hnil, hip, strTruthy, hne]
        | some s =>
            by_cases hs : s = ""
            · subst hs
              simp [get_trusted_hosts_for_env, hg, hnil, hip, strTruthy, hne]
            · simp [get_trusted_hosts_for_env, hg, hnil, hip, strTruthy, hne, hs]
      · by_cases h3 : env = "prod"
        · subst h3
          cases hip : _docker_container_ip_on_network containers "app-prod" with
          | none =>
              simp [get_trusted_hosts_for_env, hg, hnil, hip, strTruthy, hne]
          | some s =>
              by_cases hs : s = ""
              · subst hs
                simp [get_trusted_hosts_for_env, hg, hnil, hip, strTruthy, hne]
              · simp [get_trusted_hosts_for_env, hg, hnil, hip, strTruthy, hne, hs]
        · simp [get_trusted_hosts_for_env, hg, hnil, strTruthy, hne, h1, h2, h3]
  · intro hg
    have hnil : _docker_network_gateway none = none := rfl
    simp [get_trusted_hosts_for_env, hg, hnil]

/-- C8 witness: a successful inspect call answering 172.18.0.1 puts the
gateway third in the dev list. -/
theorem gateway_inclusion_iff_witness :
    (get_trusted_hosts_for_env "dev" (some (0, "172.18.0.1")) none).1
      = ["127.0.0.1", "localhost", "172.18.0.1"]
        ++ ((get_trusted_hosts_for_env "dev" none none).1.drop 2) :=
  (gateway_inclusion_iff "dev" (some (0, "172.18.0.1")) none).2.1
    "172.18.0.1" (by decide)

/-
Upsert Executor claims.
-/

/-- C6: the ensure exists phase treats an HTTP 409 conflict on the
create call as success-equivalent and returns normally (False, meaning
already existed), while any other HTTP error status terminates the run;
create_realm of the ensure script behaves identically. -/
theorem create_realm_conflict_handling (c : Nat) :
    create_realm_minimal (HttpResp.httpError 409) = .ok false
    ∧ create_realm_minimal HttpResp.success = .ok true
    ∧ (c ≠ 409 → create_realm_minimal (HttpResp.httpError c) = .error c)
    ∧ create_realm (HttpResp.httpError 409) = .ok false
    ∧ (c ≠ 409 → create_realm (HttpResp.httpError c) = .error c) := by
  refine ⟨rfl, rfl, ?_, rfl, ?_⟩ <;>
    intro h <;> simp [create_realm_minimal, create_realm, h]

/-- C6 witness: a 500 on the create call is fatal. -/
theorem create_realm_conflict_handling_witness :
    create_realm_minimal (HttpResp.httpError 500) = .error 500 :=
  (create_realm_conflict_handling 500).2.2.1 (by decide)

/-- C7: when the listed components of the client registration policy
type contain no component with provider id trusted-hosts, or the
matching component lacks a truthy id, ensure_trusted_hosts emits the
skip warning and returns without issuing any component update call. -/
theorem ensure_trusted_hosts_soft_fail (components : List JVal) (hosts : List String) :
    ((∀ c ∈ components,
        jget c "providerId" ≠ some (JVal.str TRUSTED_HOSTS_PROVIDER_ID)) →
      ensure_trusted_hosts components hosts = ⟨true, none⟩)
    ∧ (∀ t : JVal,
        components.find? (fun c => decide (jget c "providerId"
          = some (JVal.str TRUSTED_HOSTS_PROVIDER_ID))) = some t →
        truthyO (jget t "id") = false →
        ensure_trusted_hosts components hosts = ⟨true, none⟩) := by
  constructor
  · intro h
    have hfind : components.find? (fun c => decide (jget c "providerId"
        = some (JVal.str TRUSTED_HOSTS_PROVIDER_ID))) = none :=
      List.find?_eq_none.mpr (fun x hx => by simpa using h x hx)
    simp only [ensure_trusted_hosts, hfind]
  · intro t hfind hid
    simp only [ensure_trusted_hosts]
    split
    · rfl
    · rename_i t' heq
      rw [hfind] at heq
      injection heq with heq
      subst heq
      rw [if_neg (by simp [hid])]

/-- C7 witness: a component list whose only member is a different
policy provider produces the warning and no update. -/
theorem ensure_trusted_hosts_soft_fail_witness :
    ensure_trusted_hosts
      [JVal.obj [("providerId", JVal.str "consent-required"), ("id", JVal.str "c1")]]
      ["127.0.0.1", "localhost"] = ⟨true, none⟩ :=
  (ensure_trusted_hosts_soft_fail
      [JVal.obj [("providerId", JVal.str "consent-required"), ("id", JVal.str "c1")]]
      ["127.0.0.1", "localhost"]).1 (by decide)

/-- C10: with a trusted-hosts component present and carrying an id, and
a configuration in which both registration checks are already disabled
(kebab-case key or camelCase variant equal to the singleton false list),
the relaxation script returns exit code 0 without issuing any component
update call, so a re-run on converged state performs no remote
mutation. -/
theorem relax_already_converged_skips (components : List JVal) (t : JVal) (config : Dict)
    (hfind : components.find? (fun c => decide (jget c "providerId"
        = some (JVal.str TRUSTED_HOSTS_PROVIDER_ID))) = some t)
    (hid : truthyO (jget t "id") = true)
    (hconf : jget t "config" = some (JVal.obj config))
    (hhost : hostOff config = true) (huris : urisOff config = true) :
    trusted_hosts_relax_main components false = ⟨0, none⟩ := by
  simp only [trusted_hosts_relax_main]
  split
  · rfl
  · rename_i t' heq
    rw [hfind] at heq
    injection heq with heq
    subst heq
    rw [if_neg (by simp : ¬(false = true)), if_pos hid, hconf]
    show (if hostOff config && urisOff config then (⟨0, none⟩ : RelaxOutcome) else _)
      = ⟨0, none⟩
    rw [if_pos (by simp [hhost, huris])]

/-- C10 witness: a converged component (both checks false, kebab-case)
is left untouched. -/
theorem relax_already_converged_skips_witness :
    trusted_hosts_relax_main
      [JVal.obj [("id", JVal.str "cid"),
        ("providerId", JVal.str "trusted-hosts"),
        ("config", JVal.obj
          [("host-sending-registration-request-must-match", JVal.arr [JVal.str "false"]),
           ("client-uris-must-match", JVal.arr [JVal.str "false"])])]]
      false = ⟨0, none⟩ :=
  relax_already_converged_skips
    [JVal.obj [("id", JVal.str "cid"),
      ("providerId", JVal.str "trusted-hosts"),
      ("config", JVal.obj
        [("host-sending-registration-request-must-match", JVal.arr [JVal.str "false"]),
         ("client-uris-must-match", JVal.arr [JVal.str "false"])])]]
    (JVal.obj [("id", JVal.str "cid"),
      ("providerId", JVal.str "trusted-hosts"),
      ("config", JVal.obj
        [("host-sending-registration-request-must-match", JVal.arr [JVal.str "false"]),
         ("client-uris-must-match", JVal.arr [JVal.str "false"])])])
    [("host-sending-registration-request-must-match", JVal.arr [JVal.str "false"]),
     ("client-uris-must-match", JVal.arr [JVal.str "false"])]
    (by decide) (by decide) (by decide) (by decide) (by decide)

end KairosSpec
